import Mathlib

/-!
Verification development for Flask-Transfer (justanr/Flask-Transfer):
a shallow embedding of `flask_transfer/transfer.py` and
`flask_transfer/validators.py` in Lean 4, together with theorems settling
the specification claims about the pipeline orchestrator and the validator
algebra.

Conventions of the embedding:
* Python exceptions become an explicit `Exn` sum type; fallible code
  returns `Except Exn _` or the `VResult` type for validator calls.
* `UploadError` lives in `flask_transfer/exc.py`, which is not part of the
  sources at hand; following the spec it carries one message or a list of
  aggregated messages, i.e. ordinary exception `args`.  We model its args
  as a list of `ErrArg` (a string or a nested list, since `OrValidator`
  aggregates collected `args[0]` values, themselves possibly lists).
* Side effects (invoking the destination, `filehandle.save`, running a
  registered processor) are recorded in an event trace returned alongside
  each result, so "this step never ran" is a statement about the trace.
-/

namespace FlaskTransfer

/-- Argument of an `UploadError`: a plain string message or a list of
previously collected arguments (as produced by `OrValidator`). -/
inductive ErrArg where
  | s (msg : String)
  | lst (args : List ErrArg)

mutual
/-- Decidable equality for `ErrArg` (the nested list rules out `deriving`). -/
def ErrArg.decEq : (a b : ErrArg) → Decidable (a = b)
  | .s x, .s y =>
    if h : x = y then .isTrue (by rw [h]) else .isFalse (by simp [h])
  | .s _, .lst _ => .isFalse (by simp)
  | .lst _, .s _ => .isFalse (by simp)
  | .lst xs, .lst ys =>
    match ErrArg.decEqList xs ys with
    | .isTrue h => .isTrue (by rw [h])
    | .isFalse h => .isFalse (by simp [h])

/-- Decidable equality for lists of `ErrArg`. -/
def ErrArg.decEqList : (as bs : List ErrArg) → Decidable (as = bs)
  | [], [] => .isTrue rfl
  | [], _ :: _ => .isFalse (by simp)
  | _ :: _, [] => .isFalse (by simp)
  | a :: as, b :: bs =>
    match ErrArg.decEq a b, ErrArg.decEqList as bs with
    | .isTrue h1, .isTrue h2 => .isTrue (by rw [h1, h2])
    | .isFalse h1, _ => .isFalse (by simp [h1])
    | _, .isFalse h2 => .isFalse (by simp [h2])
end

instance : DecidableEq ErrArg := ErrArg.decEq

/-- Python exceptions that the embedded code can raise. -/
inductive Exn where
  | uploadError (args : List ErrArg)
  | typeError (msg : String)
  | valueError (msg : String)
  | attributeError (msg : String)
  | runtimeError (msg : String)
  | notImplementedError (msg : String)
  | indexError (msg : String)
deriving DecidableEq

/-- Python single-quote character, for rendering `repr` of strings. -/
def pyQuote (s : String) : String := "\x27" ++ s ++ "\x27"

mutual
/-- Python `repr` of an `UploadError` argument. -/
def ErrArg.reprStr : ErrArg → String
  | .s msg => pyQuote msg
  | .lst args => "[" ++ ErrArg.reprList args ++ "]"

/-- Comma-joined `repr`s of a list of arguments. -/
def ErrArg.reprList : List ErrArg → String
  | [] => ""
  | [a] => a.reprStr
  | a :: rest => a.reprStr ++ ", " ++ ErrArg.reprList rest
end

/-- Python `str` of an `UploadError` argument. -/
def ErrArg.strOf : ErrArg → String
  | .s msg => msg
  | .lst args => "[" ++ ErrArg.reprList args ++ "]"

/-- Python `str(e)` for `e = UploadError(*args)`: the sole argument's `str`
when there is exactly one argument, otherwise the `repr` of the args tuple. -/
def strOfUploadArgs : List ErrArg → String
  | [a] => a.strOf
  | [] => "()"
  | args => "(" ++ ErrArg.reprList args ++ ")"

/-- Result of calling a validator: a returned value reduced to its Python
truthiness, or a raised exception. -/
inductive VResult where
  | ok (truthy : Bool)
  | exn (e : Exn)
deriving DecidableEq

/-- Abstract filehandle: the embedding keeps the `filename` attribute the
validators read and the object's `repr` used in error messages. -/
structure FileHandle where
  filename : String
  reprStr : String
deriving DecidableEq

/-- Metadata mapping: the pipeline code only ever reads `buffer_size`
(inside `_use_filehandle_to_save`); we also keep the mapping's `repr`
because validator error messages interpolate it. -/
structure Metadata where
  bufferSize : Option Nat
  reprStr : String
deriving DecidableEq

/-- The empty dict `metadata` defaults to in `Transfer.save`. -/
def Metadata.empty : Metadata := ⟨none, "\x7b\x7d"⟩

/-- Events recorded while running the pipeline: a validator call, a
pre/postprocessor call, an invocation of a user destination callable, and a
`filehandle.save(dest, buffer_size)` performed by the wrapped saver. -/
inductive Event where
  | validatorCall (name : String)
  | procCall (name : String)
  | destCall (name : String) (filename : String)
  | fhSave (filename : String) (destRepr : String) (bufferSize : Nat)
deriving DecidableEq

/-- Validator nodes of `flask_transfer/validators.py`.  `prim` stands for an
arbitrary registered callable (a lambda, a mock, a plain function);
`funcV` is `FunctionValidator`, `andV`/`orV`/`notV` are `AndValidator`,
`OrValidator` and `NegatedValidator`, and `allowedExts`/`deniedExts` the two
extension validators (holding their already-lowercased extension set). -/
inductive Validator where
  | prim (name : String) (f : FileHandle → Metadata → VResult)
  | funcV (name : String) (f : FileHandle → Metadata → VResult)
  | andV (vs : List Validator)
  | orV (vs : List Validator)
  | notV (v : Validator)
  | allowedExts (exts : List String)
  | deniedExts (exts : List String)

mutual
/-- Python `repr` of a validator node, as defined by the classes'
`__repr__` methods. -/
def Validator.reprStr : Validator → String
  | .prim name _ => name
  | .funcV name _ => "FunctionValidator(" ++ name ++ ")"
  | .andV vs => "AndValidator(" ++ Validator.reprList vs ++ ")"
  | .orV vs => "OrValidator(" ++ Validator.reprList vs ++ ")"
  | .notV v => "NegatedValidator(" ++ v.reprStr ++ ")"
  | .allowedExts exts => "AllowedExts(" ++ String.intercalate ", " exts ++ ")"
  | .deniedExts exts => "DeniedExts(" ++ String.intercalate ", " exts ++ ")"

/-- `', '.join([repr(v) for v in validators])`. -/
def Validator.reprList : List Validator → String
  | [] => ""
  | [v] => v.reprStr
  | v :: rest => v.reprStr ++ ", " ++ Validator.reprList rest
end

/-- Message `AndValidator._validate` synthesizes for a falsy operand:
`'{0!r}({1!r}, {2!r}) returned false in {3!r}'.format(validator, filehandle,
metadata, self)`. -/
def andFalseMsg (v : Validator) (fh : FileHandle) (md : Metadata)
    (selfRepr : String) : String :=
  v.reprStr ++ "(" ++ fh.reprStr ++ ", " ++ md.reprStr ++
    ") returned false in " ++ selfRepr

/-- Message `OrValidator._validate` synthesizes for a falsy operand (same
format string as AND's, with a trailing period). -/
def orFalseMsg (v : Validator) (fh : FileHandle) (md : Metadata)
    (selfRepr : String) : String :=
  v.reprStr ++ "(" ++ fh.reprStr ++ ", " ++ md.reprStr ++
    ") returned false in " ++ selfRepr ++ "."

/-- Message `NegatedValidator._validate` raises when the nested validator
succeeded: `'{0!r}({1!r}, {2!r}) returned false'.format(self, filehandle,
metadata)`. -/
def notFalseMsg (selfRepr : String) (fh : FileHandle) (md : Metadata) :
    String :=
  selfRepr ++ "(" ++ fh.reprStr ++ ", " ++ md.reprStr ++ ") returned false"

/-- Last index at which character `c` occurs in `cs` (Python `str.rfind`,
as `Option`). -/
def lastIdx (cs : List Char) (c : Char) : Option Nat :=
  (List.range cs.length).foldl
    (fun acc i => if cs.get? i == some c then some i else acc) none

/-- Extension extraction of `ExtValidator._getext`:
`os.path.splitext(filename)[-1][1:].lower()`.  Following `posixpath.splitext`,
the extension is the suffix from the last dot, provided that dot lies after
the last path separator and at least one character of the basename before it
is not itself a dot; `[1:]` then strips the dot and the result is lowercased. -/
def getext (filename : String) : String :=
  let cs := filename.toList
  match lastIdx cs '.' with
  | none => ""
  | some dotIndex =>
    let fnameIdx : Nat :=
      match lastIdx cs '/' with
      | none => 0
      | some sepIndex => sepIndex + 1
    if fnameIdx ≤ dotIndex ∧
        (List.range dotIndex).any
          (fun k => decide (fnameIdx ≤ k) && (cs.getD k '.' != '.')) = true
    then String.mk ((cs.drop (dotIndex + 1)).map Char.toLower)
    else ""

/-- `AllowedExts` failure message: `'{0} has an invalid extension, allowed
extensions: {1}'` with the extensions comma-joined. -/
def allowedExtsMsg (filename : String) (exts : List String) : String :=
  filename ++ " has an invalid extension, allowed extensions: " ++
    String.intercalate ", " exts

/-- `DeniedExts` failure message: `'{0} has an invalid extension, denied
extensions {1}'` (no colon in the source format string). -/
def deniedExtsMsg (filename : String) (exts : List String) : String :=
  filename ++ " has an invalid extension, denied extensions " ++
    String.intercalate ", " exts

/-- `str.lower` on an ASCII-style string, written over the character list
so it evaluates by kernel reduction. -/
def lowerStr (s : String) : String := String.mk (s.toList.map Char.toLower)

/-- `ExtValidator.__init__` lowercases the configured extensions
(frozenset membership is modelled by list membership on the lowercased
list). -/
def mkAllowedExts (exts : List String) : Validator :=
  .allowedExts (exts.map lowerStr)

/-- `DeniedExts` construction, lowercasing like `ExtValidator.__init__`. -/
def mkDeniedExts (exts : List String) : Validator :=
  .deniedExts (exts.map lowerStr)

mutual
/-- Calling a validator (its `__call__`, hence `_validate`): the result plus
the trace of primitive-callable invocations made along the way. -/
def Validator.run : Validator → FileHandle → Metadata → VResult × List Event
  | .prim name f, fh, md => (f fh md, [.validatorCall name])
  | .funcV name f, fh, md => (f fh md, [.validatorCall name])
  | .andV vs, fh, md => Validator.runAnd (Validator.andV vs).reprStr vs fh md
  | .orV vs, fh, md => Validator.runOr (Validator.orV vs).reprStr vs fh md [] []
  | .notV v, fh, md =>
    let (r, t) := v.run fh md
    match r with
    | .ok false => (.ok true, t)
    | .exn (.uploadError _) => (.ok true, t)
    | .exn e => (.exn e, t)
    | .ok true =>
      (.exn (.uploadError [.s (notFalseMsg (Validator.notV v).reprStr fh md)]), t)
  | .allowedExts exts, fh, _md =>
    if (getext fh.filename) ∈ exts then (.ok true, [])
    else (.exn (.uploadError [.s (allowedExtsMsg fh.filename exts)]), [])
  | .deniedExts exts, fh, _md =>
    if (getext fh.filename) ∈ exts then
      (.exn (.uploadError [.s (deniedExtsMsg fh.filename exts)]), [])
    else (.ok true, [])

/-- The loop body of `AndValidator._validate`: raise the first operand's
exception unmodified, synthesize a `returned false` `UploadError` for the
first falsy operand, otherwise return `True` after the full pass. -/
def Validator.runAnd (selfRepr : String) :
    List Validator → FileHandle → Metadata → VResult × List Event
  | [], _, _ => (.ok true, [])
  | v :: rest, fh, md =>
    let (r, t) := v.run fh md
    match r with
    | .exn e => (.exn e, t)
    | .ok false =>
      (.exn (.uploadError [.s (andFalseMsg v fh md selfRepr)]), t)
    | .ok true =>
      let (r2, t2) := Validator.runAnd selfRepr rest fh md
      (r2, t ++ t2)

/-- The loop body of `OrValidator._validate`: return `True` at the first
operand that neither raises `UploadError` nor returns falsy; collect
`e.args[0]` of every failure; after the full pass raise
`UploadError(errors)`.  A raised `UploadError` with empty `args` makes
`e.args[0]` an `IndexError`; any non-`UploadError` exception propagates. -/
def Validator.runOr (selfRepr : String) :
    List Validator → FileHandle → Metadata → List ErrArg → List Event →
      VResult × List Event
  | [], _, _, errors, trace => (.exn (.uploadError [.lst errors]), trace)
  | v :: rest, fh, md, errors, trace =>
    let (r, t) := v.run fh md
    match r with
    | .ok true => (.ok true, trace ++ t)
    | .ok false =>
      Validator.runOr selfRepr rest fh md
        (errors ++ [.s (orFalseMsg v fh md selfRepr)]) (trace ++ t)
    | .exn (.uploadError (a :: _)) =>
      Validator.runOr selfRepr rest fh md (errors ++ [a]) (trace ++ t)
    | .exn (.uploadError []) =>
      (.exn (.indexError "tuple index out of range"), trace ++ t)
    | .exn e => (.exn e, trace ++ t)
end

/-- A destination value as passed by a caller (`Transfer.__init__` or
`Transfer.save`): a callable, an object with a `write` attribute, a string
path, or anything else (which `_make_destination_callable` rejects).
Python truthiness: objects are truthy, a string is truthy iff non-empty. -/
inductive Dest where
  | callable (name : String) (f : FileHandle → Metadata → Except Exn Unit)
  | writable (name : String)
  | path (s : String)
  | other (name : String)

/-- Python truthiness of a destination value (`destination or
self._destination`). -/
def Dest.truthy : Dest → Bool
  | .path s => !s.isEmpty
  | _ => true

/-- `repr` of the wrapped destination, for the `fhSave` event. -/
def Dest.reprStr : Dest → String
  | .callable name _ => name
  | .writable name => name
  | .path s => pyQuote s
  | .other name => name

/-- A resolved destination callable: either the caller's own callable, or
the `saver` closure `_use_filehandle_to_save(dest)` builds around a
writable/path destination. -/
inductive DestCallable where
  | user (name : String) (f : FileHandle → Metadata → Except Exn Unit)
  | saver (dest : Dest)

/-- `Transfer._make_destination_callable`: callables pass through, writables
and string paths are wrapped by `_use_filehandle_to_save`, anything else is
`TypeError("Destination must be a string, writable or callable object.")`. -/
def makeDestinationCallable : Dest → Except Exn DestCallable
  | .callable name f => .ok (.user name f)
  | .writable name => .ok (.saver (.writable name))
  | .path s => .ok (.saver (.path s))
  | .other _ =>
    .error (.typeError "Destination must be a string, writable or callable object.")

/-- Invoking a resolved destination with `(filehandle, metadata)`.  The
`saver` closure performs `filehandle.save(dest, metadata.get('buffer_size',
16384))`, recorded as an `fhSave` event. -/
def DestCallable.call : DestCallable → FileHandle → Metadata →
    Except Exn Unit × List Event
  | .user name f, fh, md => (f fh md, [.destCall name fh.filename])
  | .saver d, fh, md =>
    (.ok (), [.fhSave fh.filename d.reprStr (md.bufferSize.getD 16384)])

/-- An entry of a `Transfer`'s pre/postprocessor list: a plain two-argument
function returning the (possibly new) filehandle, or a `Transfer` instance
registered as a processor.  The `Transfer` class defines no `__call__`, so
invoking such an entry raises `TypeError`. -/
inductive Proc where
  | fn (name : String) (f : FileHandle → Metadata → Except Exn FileHandle)
  | transferObj (name : String)

/-- Invoking one processor entry with `(filehandle, metadata)`. -/
def Proc.call : Proc → FileHandle → Metadata →
    Except Exn FileHandle × List Event
  | .fn name f, fh, md => (f fh md, [.procCall name])
  | .transferObj _, _, _ =>
    (.error (.typeError (pyQuote "Transfer" ++ " object is not callable")), [])

/-- The state a constructed `Transfer` object carries: the resolved default
destination (or `None`) and the three hook lists. -/
structure TransferData where
  destination : Option DestCallable
  validators : List Validator
  preprocessors : List Proc
  postprocessors : List Proc

namespace Transfer

/-- `Transfer.__init__`: with a non-`None` destination the constructor
evaluates `self.postprocessor_make_destination_callable(destination)` — an
attribute the class does not define — so it raises `AttributeError` before
storing anything; with `destination=None` it stores `None` and the three
lists (`validators or []`, etc.). -/
def init (destination : Option Dest) (validators : Option (List Validator))
    (preprocessors postprocessors : Option (List Proc)) :
    Except Exn TransferData :=
  match destination with
  | some _ =>
    .error (.attributeError
      (pyQuote "Transfer" ++ " object has no attribute " ++
        pyQuote "postprocessor_make_destination_callable"))
  | none =>
    .ok ⟨none, validators.getD [], preprocessors.getD [],
      postprocessors.getD []⟩

/-- The loop of `Transfer._validate`: each validator is called and its
return value discarded; only a raised `UploadError` counts as failure.
Without `catch_all_errors` the first `UploadError` propagates; with it the
caught errors' arg-lists are collected and, after the full pass,
`UploadError(*[str(e) for e in errors])` is raised when any were caught.
Non-`UploadError` exceptions always propagate. -/
def validateLoop (catchAllErrors : Bool) :
    List Validator → FileHandle → Metadata → List (List ErrArg) →
      Except Exn Unit × List Event
  | [], _, _, errors =>
    if errors.isEmpty then (.ok (), [])
    else (.error (.uploadError (errors.map (fun args => .s (strOfUploadArgs args)))), [])
  | v :: rest, fh, md, errors =>
    let (r, t) := v.run fh md
    match r with
    | .exn (.uploadError args) =>
      if catchAllErrors then
        let (r2, t2) := validateLoop catchAllErrors rest fh md (errors ++ [args])
        (r2, t ++ t2)
      else (.error (.uploadError args), t)
    | .exn e => (.error e, t)
    | .ok _ =>
      let (r2, t2) := validateLoop catchAllErrors rest fh md errors
      (r2, t ++ t2)

/-- `Transfer._validate(filehandle, metadata, catch_all_errors=False)`. -/
def validateStep (t : TransferData) (fh : FileHandle) (md : Metadata)
    (catchAllErrors : Bool) : Except Exn Unit × List Event :=
  validateLoop catchAllErrors t.validators fh md []

/-- `Transfer._preprocess` / `Transfer._postprocess`: fold the processor
list over the filehandle, each step's return value feeding the next. -/
def runProcs : List Proc → FileHandle → Metadata →
    Except Exn FileHandle × List Event
  | [], fh, _ => (.ok fh, [])
  | p :: rest, fh, md =>
    let (r, t) := p.call fh md
    match r with
    | .error e => (.error e, t)
    | .ok fh2 =>
      let (r2, t2) := runProcs rest fh2 md
      (r2, t ++ t2)

/-- Effective destination after `destination = destination or
self._destination`: the truthy per-call value (still to be resolved) or the
stored, already-resolved default. -/
inductive EffDest where
  | fromCall (d : Dest)
  | stored (c : DestCallable)

/-- `Transfer.save(filehandle, destination=None, metadata=None,
validate=True, catch_all_errors=False)`: pick the effective destination
(`destination or self._destination`, `RuntimeError` when that is `None`),
resolve a per-call destination through `_make_destination_callable`, default
`metadata` to `{}`, then run `self._validate(filehandle, metadata)` — the
source does not forward `catch_all_errors` — then `_preprocess`, the
destination callable, and `_postprocess`. -/
def save (t : TransferData) (fh : FileHandle) (destOpt : Option Dest)
    (mdOpt : Option Metadata) (validate : Bool) (catchAllErrors : Bool) :
    Except Exn Unit × List Event :=
  let eff : Option EffDest :=
    match destOpt with
    | some d => if d.truthy then some (.fromCall d) else t.destination.map .stored
    | none => t.destination.map .stored
  match eff with
  | none =>
    (.error (.runtimeError "Destination for filehandle must be provided."), [])
  | some effDest =>
    let resolved : Except Exn DestCallable :=
      match effDest with
      | .stored c => .ok c
      | .fromCall d => makeDestinationCallable d
    match resolved with
    | .error e => (.error e, [])
    | .ok dcall =>
      let md := mdOpt.getD Metadata.empty
      let (vres, vtrace) :=
        if validate then validateStep t fh md false else (.ok (), [])
      match vres with
      | .error e => (.error e, vtrace)
      | .ok _ =>
        let (pres, ptrace) := runProcs t.preprocessors fh md
        match pres with
        | .error e => (.error e, vtrace ++ ptrace)
        | .ok fh2 =>
          let (dres, dtrace) := dcall.call fh2 md
          match dres with
          | .error e => (.error e, vtrace ++ ptrace ++ dtrace)
          | .ok _ =>
            let (qres, qtrace) := runProcs t.postprocessors fh2 md
            match qres with
            | .error e => (.error e, vtrace ++ ptrace ++ dtrace ++ qtrace)
            | .ok _ => (.ok (), vtrace ++ ptrace ++ dtrace ++ qtrace)

end Transfer

/-- Concatenated trace of calling each validator of `vs` in order. -/
def tracesOf (vs : List Validator) (fh : FileHandle) (md : Metadata) :
    List Event :=
  (vs.map (fun v => (v.run fh md).snd)).flatten

/-- Every validator in the list returns a truthy value on these inputs. -/
def AllTruthy (vs : List Validator) (fh : FileHandle) (md : Metadata) :
    Prop :=
  ∀ v ∈ vs, (v.run fh md).fst = VResult.ok true

instance (vs : List Validator) (fh : FileHandle) (md : Metadata) :
    Decidable (AllTruthy vs fh md) :=
  inferInstanceAs (Decidable (∀ v ∈ vs, (v.run fh md).fst = VResult.ok true))

/-- A validator fails in `OrValidator`'s sense on these inputs: it returns a
falsy value, or raises an `UploadError` carrying at least one argument. -/
def failsOr (v : Validator) (fh : FileHandle) (md : Metadata) : Bool :=
  match (v.run fh md).fst with
  | .ok false => true
  | .exn (.uploadError (_ :: _)) => true
  | _ => false

/-- The entry `OrValidator._validate` appends to `errors` for a failing
operand: the raised error's `args[0]`, or the synthesized `returned false`
message for a falsy return. -/
def orMsgOf (selfRepr : String) (v : Validator) (fh : FileHandle)
    (md : Metadata) : ErrArg :=
  match (v.run fh md).fst with
  | .exn (.uploadError (a :: _)) => a
  | _ => .s (orFalseMsg v fh md selfRepr)

/-- Extension as claim C9 words it: the lowercased substring after the last
dot of the name, without the dot (empty when the name has no dot).  This
definition follows the claim's words, to be compared against `getext`. -/
def extAfterLastDot (filename : String) : String :=
  match lastIdx filename.toList '.' with
  | none => ""
  | some i => String.mk ((filename.toList.drop (i + 1)).map Char.toLower)

/-- Concrete always-truthy validator used in witnesses. -/
def vOkW : Validator := .prim "v_ok" (fun _ _ => .ok true)

/-- Concrete validator raising `UploadError('boom')`, used in witnesses. -/
def vRaiseW : Validator :=
  .prim "v_raise" (fun _ _ => .exn (.uploadError [.s "boom"]))

/-- Concrete validator returning a falsy value, used in witnesses. -/
def vFalseW : Validator := .prim "v_false" (fun _ _ => .ok false)

/-- Concrete filehandle used in witnesses. -/
def fhW : FileHandle := ⟨"photo.JPG", "DummyFile(photo.JPG)"⟩

/-- Concrete metadata used in witnesses. -/
def mdW : Metadata := Metadata.empty

/-- Running `AndValidator`'s loop over an all-truthy list returns `True`
with the operands' concatenated traces. -/
theorem runAnd_all_truthy (selfRepr : String) (vs : List Validator)
    (fh : FileHandle) (md : Metadata) (h : AllTruthy vs fh md) :
    Validator.runAnd selfRepr vs fh md = (VResult.ok true, tracesOf vs fh md) := by
  induction vs with
  | nil => simp [Validator.runAnd, tracesOf]
  | cons w rest ih =>
    have hw : (w.run fh md).fst = VResult.ok true := h w (List.mem_cons_self _ _)
    have hrest : AllTruthy rest fh md := fun v hv => h v (List.mem_cons_of_mem _ hv)
    rcases hEq : w.run fh md with ⟨r, t⟩
    rw [hEq] at hw
    simp only at hw
    subst hw
    simp [Validator.runAnd, hEq, ih hrest, tracesOf]

/-- `AndValidator`'s loop skips over an all-truthy prefix, accumulating its
traces. -/
theorem runAnd_append (selfRepr : String) (pre rest : List Validator)
    (fh : FileHandle) (md : Metadata) (h : AllTruthy pre fh md) :
    Validator.runAnd selfRepr (pre ++ rest) fh md =
      ((Validator.runAnd selfRepr rest fh md).fst,
        tracesOf pre fh md ++ (Validator.runAnd selfRepr rest fh md).snd) := by
  induction pre with
  | nil => simp [tracesOf]
  | cons w pre' ih =>
    have hw : (w.run fh md).fst = VResult.ok true := h w (List.mem_cons_self _ _)
    have hpre' : AllTruthy pre' fh md := fun v hv => h v (List.mem_cons_of_mem _ hv)
    rcases hEq : w.run fh md with ⟨r, t⟩
    rw [hEq] at hw
    simp only at hw
    subst hw
    simp [Validator.runAnd, hEq, ih hpre', tracesOf]

/-- `OrValidator`'s loop turns a failing prefix into collected messages and
accumulated traces. -/
theorem runOr_append (selfRepr : String) (pre rest : List Validator)
    (fh : FileHandle) (md : Metadata) (errors : List ErrArg)
    (trace : List Event) (h : ∀ w ∈ pre, failsOr w fh md = true) :
    Validator.runOr selfRepr (pre ++ rest) fh md errors trace =
      Validator.runOr selfRepr rest fh md
        (errors ++ pre.map (fun w => orMsgOf selfRepr w fh md))
        (trace ++ tracesOf pre fh md) := by
  induction pre generalizing errors trace with
  | nil => simp [tracesOf]
  | cons w pre' ih =>
    have hw : failsOr w fh md = true := h w (List.mem_cons_self _ _)
    have hpre' : ∀ v ∈ pre', failsOr v fh md = true :=
      fun v hv => h v (List.mem_cons_of_mem _ hv)
    rcases hEq : w.run fh md with ⟨r, t⟩
    rw [failsOr, hEq] at hw
    simp only at hw
    match r, hw with
    | .ok false, _ =>
      rw [List.cons_append]
      simp only [Validator.runOr, hEq]
      rw [ih _ _ hpre']
      simp [orMsgOf, hEq, tracesOf]
    | .exn (.uploadError (a :: more)), _ =>
      rw [List.cons_append]
      simp only [Validator.runOr, hEq]
      rw [ih _ _ hpre']
      simp [orMsgOf, hEq, tracesOf]

/-- Claim C1: constructing a `Transfer` with a destination of any accepted
shape is claimed to succeed and store it resolved into a uniform callable;
in the source, `Transfer.__init__` instead evaluates the nonexistent
attribute `postprocessor_make_destination_callable`, so it raises
`AttributeError` for every non-`None` destination, all three accepted
shapes included. -/
theorem init_with_destination_raises (d : Dest)
    (vs : Option (List Validator)) (ps qs : Option (List Proc)) :
    Transfer.init (some d) vs ps qs =
      .error (.attributeError
        (pyQuote "Transfer" ++ " object has no attribute " ++
          pyQuote "postprocessor_make_destination_callable")) := rfl

/-- Claim C2 (failing input): a pipeline with two validators that each raise
an `UploadError`, saved with `catch_all_errors=True`, is claimed to run both
validators and raise one aggregate error holding both messages; the
source's `save` does not forward `catch_all_errors` to `_validate`, so the
first error is raised alone and the second validator never runs — the trace
holds only the first validator's call. -/
theorem save_ignores_catch_all_errors :
    Transfer.save
      ⟨none,
        [.prim "v1" (fun _ _ => .exn (.uploadError [.s "error 1"])),
         .prim "v2" (fun _ _ => .exn (.uploadError [.s "error 2"]))],
        [], []⟩
      ⟨"test.txt", "DummyFile(test.txt)"⟩
      (some (.callable "dest" (fun _ _ => .ok ()))) none true true =
      (.error (.uploadError [.s "error 1"]), [.validatorCall "v1"]) := rfl

/-- Claim C3 (failing input): a validator returning a falsy value without
raising is claimed to make validation fail so that nothing further runs;
the source's `_validate` discards validator return values, so `save`
completes successfully and the destination is invoked (the `destCall`
event). -/
theorem save_proceeds_on_falsy_validator :
    Transfer.save
      ⟨none, [.prim "bad_validator" (fun _ _ => .ok false)], [], []⟩
      ⟨"test.conf", "DummyFile(test.conf)"⟩
      (some (.callable "dest" (fun _ _ => .ok ()))) none true false =
      (.ok (), [.validatorCall "bad_validator", .destCall "dest" "test.conf"]) := rfl

/-- Claim C4 (failing input): a `Transfer` registered as a postprocessor of
another is claimed to be callable so the nested pipeline runs exactly once;
the source's `Transfer` defines no `__call__`, so the outer save raises
`TypeError` at the postprocessing step — after delivery — and the inner
pipeline never runs at all. -/
theorem nested_transfer_postprocessor_type_error :
    Transfer.save
      ⟨none, [], [], [.transferObj "Inner"]⟩
      ⟨"derp.png", "DummyFile(derp.png)"⟩
      (some (.callable "dest" (fun _ _ => .ok ()))) (some Metadata.empty)
      true false =
      (.error (.typeError (pyQuote "Transfer" ++ " object is not callable")),
        [.destCall "dest" "derp.png"]) := rfl

/-- Claim C5 (counterexample): `FunctionValidator` is claimed to translate
type-mismatch errors raised by the wrapped function into the structured
upload error; on a wrapped function raising `TypeError`, the validator
propagates that `TypeError` itself and no `UploadError` results. -/
theorem functionValidator_no_translation_cex :
    ((Validator.funcV "check"
        (fun _ _ => .exn (.typeError "unsupported operand type"))).run
      fhW mdW).fst = VResult.exn (.typeError "unsupported operand type") ∧
    ∀ args, ((Validator.funcV "check"
        (fun _ _ => .exn (.typeError "unsupported operand type"))).run
      fhW mdW).fst ≠ VResult.exn (.uploadError args) := by
  refine ⟨rfl, ?_⟩
  intro args h
  simp [Validator.run] at h

/-- Claim C5 (amended): `FunctionValidator` merely delegates to the wrapped
two-argument function — its result, and any exception it raises, pass
through unmodified; no exception kind is translated and there is no
registerable translation set. -/
theorem functionValidator_delegates (name : String)
    (f : FileHandle → Metadata → VResult) (fh : FileHandle) (md : Metadata) :
    (Validator.funcV name f).run fh md = (f fh md, [.validatorCall name]) := rfl

/-- Claim C6: `AND(v1,...,vn)` evaluates operands left-to-right and stops at
the first failing operand: a raised error propagates with no later operand
evaluated (the trace is exactly the prefix's plus the failing operand's); a
falsy operand yields a synthesized `returned false` `UploadError` quoting
the operand, the inputs and the AND node, again with no later operand
evaluated; and if every operand is truthy, AND returns `True`. -/
theorem andValidator_short_circuit (pre post : List Validator)
    (v : Validator) (fh : FileHandle) (md : Metadata)
    (hpre : AllTruthy pre fh md) :
    (∀ e, (v.run fh md).fst = VResult.exn e →
      (Validator.andV (pre ++ v :: post)).run fh md =
        (VResult.exn e, tracesOf pre fh md ++ (v.run fh md).snd))
  ∧ ((v.run fh md).fst = VResult.ok false →
      (Validator.andV (pre ++ v :: post)).run fh md =
        (VResult.exn (.uploadError [.s (andFalseMsg v fh md
            (Validator.andV (pre ++ v :: post)).reprStr)]),
          tracesOf pre fh md ++ (v.run fh md).snd))
  ∧ (AllTruthy (pre ++ v :: post) fh md →
      ((Validator.andV (pre ++ v :: post)).run fh md).fst = VResult.ok true) := by
  refine ⟨?_, ?_, ?_⟩
  · intro e he
    rcases hEq : v.run fh md with ⟨r, t⟩
    rw [hEq] at he
    simp only at he
    subst he
    simp only [Validator.run]
    rw [runAnd_append _ _ _ _ _ hpre]
    simp [Validator.runAnd, hEq]
  · intro he
    rcases hEq : v.run fh md with ⟨r, t⟩
    rw [hEq] at he
    simp only at he
    subst he
    simp only [Validator.run]
    rw [runAnd_append _ _ _ _ _ hpre]
    simp [Validator.runAnd, hEq]
  · intro hall
    simp only [Validator.run]
    rw [runAnd_all_truthy _ _ _ _ hall]

/-- Claim C6 witness: a truthy first operand, a raising second, and a third
that would record a call: AND raises the second operand's error and the
trace shows the third operand was never invoked. -/
theorem andValidator_short_circuit_witness :
    AllTruthy [vOkW] fhW mdW ∧
    (vRaiseW.run fhW mdW).fst = VResult.exn (.uploadError [.s "boom"]) ∧
    (Validator.andV ([vOkW] ++ vRaiseW :: [vOkW])).run fhW mdW =
      (VResult.exn (.uploadError [.s "boom"]),
        tracesOf [vOkW] fhW mdW ++ (vRaiseW.run fhW mdW).snd) :=
  ⟨by decide, rfl,
    (andValidator_short_circuit [vOkW] [vOkW] vRaiseW fhW mdW (by decide)).1
      (.uploadError [.s "boom"]) rfl⟩

/-- Claim C7: `OR(v1,...,vn)` returns `True` at the first operand that
returns truthy without raising, evaluating no later operand (the trace is
exactly the failing prefix's plus that operand's); when every operand fails
(raises an `UploadError` or returns falsy), it raises one `UploadError`
whose payload is the ordered list of the n collected failure messages, one
per operand in operand order. -/
theorem orValidator_semantics (fh : FileHandle) (md : Metadata) :
    (∀ pre (v : Validator) post, (∀ w ∈ pre, failsOr w fh md = true) →
        (v.run fh md).fst = VResult.ok true →
        (Validator.orV (pre ++ v :: post)).run fh md =
          (VResult.ok true, tracesOf pre fh md ++ (v.run fh md).snd))
  ∧ (∀ vs, (∀ w ∈ vs, failsOr w fh md = true) →
        (Validator.orV vs).run fh md =
          (VResult.exn (.uploadError [.lst (vs.map (fun w =>
              orMsgOf (Validator.orV vs).reprStr w fh md))]),
            tracesOf vs fh md) ∧
        (vs.map (fun w =>
            orMsgOf (Validator.orV vs).reprStr w fh md)).length = vs.length) := by
  constructor
  · intro pre v post hpre hv
    rcases hEq : v.run fh md with ⟨r, t⟩
    rw [hEq] at hv
    simp only at hv
    subst hv
    simp only [Validator.run]
    rw [runOr_append _ _ _ _ _ _ _ hpre]
    simp [Validator.runOr, hEq]
  · intro vs hall
    constructor
    · simp only [Validator.run]
      have hrw := runOr_append (Validator.orV vs).reprStr vs [] fh md [] [] hall
      rw [List.append_nil] at hrw
      rw [hrw]
      simp [Validator.runOr]
    · simp

/-- Claim C7 witness: a falsy first operand then a truthy one returns
`True` with the trace stopping there (the raising third never runs); and
with two failing operands the aggregate payload lists both messages in
order. -/
theorem orValidator_semantics_witness :
    (∀ w ∈ [vFalseW], failsOr w fhW mdW = true) ∧
    (vOkW.run fhW mdW).fst = VResult.ok true ∧
    (Validator.orV ([vFalseW] ++ vOkW :: [vRaiseW])).run fhW mdW =
      (VResult.ok true, tracesOf [vFalseW] fhW mdW ++ (vOkW.run fhW mdW).snd) ∧
    (Validator.orV [vFalseW, vRaiseW]).run fhW mdW =
      (VResult.exn (.uploadError [.lst ([vFalseW, vRaiseW].map (fun w =>
          orMsgOf (Validator.orV [vFalseW, vRaiseW]).reprStr w fhW mdW))]),
        tracesOf [vFalseW, vRaiseW] fhW mdW) :=
  ⟨by decide, rfl,
    (orValidator_semantics fhW mdW).1 [vFalseW] vOkW [vRaiseW] (by decide) rfl,
    ((orValidator_semantics fhW mdW).2 [vFalseW, vRaiseW] (by decide)).1⟩

/-- Claim C8: for a validator returning strictly `True`/`False`,
`NOT(NOT(v))` returns `True` exactly when `v` returns `True`; when `v`
returns `False`, `NOT(NOT(v))` raises a fresh `returned false`
`UploadError` whose message references the outer NOT node (its `repr`),
not any original failure text of `v`. -/
theorem notNot_semantics (v : Validator) (fh : FileHandle) (md : Metadata)
    (hb : (v.run fh md).fst = VResult.ok true ∨
      (v.run fh md).fst = VResult.ok false) :
    (((Validator.notV (Validator.notV v)).run fh md).fst = VResult.ok true ↔
      (v.run fh md).fst = VResult.ok true)
  ∧ ((v.run fh md).fst = VResult.ok false →
      ((Validator.notV (Validator.notV v)).run fh md).fst =
        VResult.exn (.uploadError [.s (notFalseMsg
          (Validator.notV (Validator.notV v)).reprStr fh md)])) := by
  rcases hEq : v.run fh md with ⟨r, t⟩
  rw [hEq] at hb
  simp only at hb
  rcases hb with hb | hb <;> subst hb <;>
    exact ⟨by simp [Validator.run, hEq], by simp [Validator.run, hEq]⟩

/-- Claim C8 witness: on a strictly false validator, `NOT(NOT(v))` raises
the `returned false` error naming the doubly-negated node. -/
theorem notNot_semantics_witness :
    ((vFalseW.run fhW mdW).fst = VResult.ok true ∨
      (vFalseW.run fhW mdW).fst = VResult.ok false) ∧
    ((Validator.notV (Validator.notV vFalseW)).run fhW mdW).fst =
      VResult.exn (.uploadError [.s (notFalseMsg
        (Validator.notV (Validator.notV vFalseW)).reprStr fhW mdW)]) :=
  ⟨Or.inr rfl, (notNot_semantics vFalseW fhW mdW (Or.inr rfl)).2 rfl⟩

/-- Claim C9 (counterexample): the claim defines the extension as the
lowercased substring after the last dot, which for the name `.JPG` is
`jpg`, a member of `AllowedExts("jpg")`'s set — so the claim predicts
success — yet the code (following `os.path.splitext`, which gives dotfiles
no extension) raises the invalid-extension error. -/
theorem allowedExts_dotfile_cex :
    extAfterLastDot ".JPG" = "jpg" ∧ "jpg" ∈ ["jpg"] ∧
    ((mkAllowedExts ["jpg"]).run ⟨".JPG", "DummyFile(.JPG)"⟩ mdW).fst =
      VResult.exn (.uploadError [.s (allowedExtsMsg ".JPG" ["jpg"])]) :=
  ⟨by decide, by decide, by decide⟩

/-- Claim C9 (amended): `AllowedExts` succeeds iff the extension computed as
`os.path.splitext` computes it (`getext`: the lowercased suffix after the
last dot, provided that dot follows the last path separator and some earlier
character of the basename is not itself a dot; dotfiles and dotless names
thus have no extension) is a member of the configured lowercased set, and
otherwise raises the `invalid extension` message naming the file and the
allowed set; `DeniedExts` is the exact mirror over the same computation. -/
theorem extValidators_follow_splitext (exts : List String)
    (fh : FileHandle) (md : Metadata) :
    (((mkAllowedExts exts).run fh md).fst = VResult.ok true ↔
      getext fh.filename ∈ exts.map lowerStr)
  ∧ (getext fh.filename ∉ exts.map lowerStr →
      (mkAllowedExts exts).run fh md =
        (VResult.exn (.uploadError [.s (allowedExtsMsg fh.filename
          (exts.map lowerStr))]), []))
  ∧ (((mkDeniedExts exts).run fh md).fst = VResult.ok true ↔
      getext fh.filename ∉ exts.map lowerStr)
  ∧ (getext fh.filename ∈ exts.map lowerStr →
      (mkDeniedExts exts).run fh md =
        (VResult.exn (.uploadError [.s (deniedExtsMsg fh.filename
          (exts.map lowerStr))]), [])) := by
  by_cases h : getext fh.filename ∈ exts.map lowerStr <;>
    refine ⟨?_, ?_, ?_, ?_⟩ <;>
      simp [Validator.run, mkAllowedExts, mkDeniedExts, h]

/-- Claim C9 witness: `AllowedExts("jpg")` accepts `photo.JPG`
case-insensitively, rejects `photo.png` with the message naming the file
and the allowed set, and `DeniedExts("png")` rejects `photo.PNG` with the
mirrored message. -/
theorem extValidators_follow_splitext_witness :
    getext "photo.JPG" ∈ (["jpg"].map lowerStr) ∧
    ((mkAllowedExts ["jpg"]).run ⟨"photo.JPG", "DummyFile(photo.JPG)"⟩
      mdW).fst = VResult.ok true ∧
    getext "photo.png" ∉ (["jpg"].map lowerStr) ∧
    (mkAllowedExts ["jpg"]).run ⟨"photo.png", "DummyFile(photo.png)"⟩ mdW =
      (VResult.exn (.uploadError [.s (allowedExtsMsg "photo.png"
        (["jpg"].map lowerStr))]), []) ∧
    (mkDeniedExts ["png"]).run ⟨"photo.PNG", "DummyFile(photo.PNG)"⟩ mdW =
      (VResult.exn (.uploadError [.s (deniedExtsMsg "photo.PNG"
        (["png"].map lowerStr))]), []) :=
  ⟨by decide,
   (extValidators_follow_splitext ["jpg"]
     ⟨"photo.JPG", "DummyFile(photo.JPG)"⟩ mdW).1.mpr (by decide),
   by decide,
   (extValidators_follow_splitext ["jpg"]
     ⟨"photo.png", "DummyFile(photo.png)"⟩ mdW).2.1 (by decide),
   (extValidators_follow_splitext ["png"]
     ⟨"photo.PNG", "DummyFile(photo.PNG)"⟩ mdW).2.2.2 (by decide)⟩

/-- Claim C10: a per-call destination that is falsy but not `None` (the
empty-string path) is silently ignored by `save`: `destination or
self._destination` replaces it with the stored default, so the call behaves
exactly as if no per-call destination had been supplied — and when no
default is stored, the missing-destination `RuntimeError` is raised rather
than the falsy value being resolved as a path-shaped destination. -/
theorem save_falsy_destination_uses_default (t : TransferData)
    (fh : FileHandle) (d : Dest) (mdOpt : Option Metadata)
    (validate catchAll : Bool) (h : d.truthy = false) :
    Transfer.save t fh (some d) mdOpt validate catchAll =
      Transfer.save t fh none mdOpt validate catchAll
  ∧ (t.destination = none →
      Transfer.save t fh (some d) mdOpt validate catchAll =
        (.error (.runtimeError "Destination for filehandle must be provided."),
          [])) := by
  constructor
  · simp [Transfer.save, h]
  · intro hd
    simp [Transfer.save, h, hd]

/-- Claim C10 witness: with no stored default, saving with the empty-string
path behaves exactly like saving with no destination and raises the
missing-destination `RuntimeError`. -/
theorem save_falsy_destination_uses_default_witness :
    (Dest.path "").truthy = false ∧
    Transfer.save ⟨none, [], [], []⟩ fhW (some (.path "")) none true false =
      Transfer.save ⟨none, [], [], []⟩ fhW none none true false ∧
    Transfer.save ⟨none, [], [], []⟩ fhW (some (.path "")) none true false =
      (.error (.runtimeError "Destination for filehandle must be provided."),
        []) :=
  ⟨rfl,
   (save_falsy_destination_uses_default ⟨none, [], [], []⟩ fhW (.path "")
     none true false rfl).1,
   (save_falsy_destination_uses_default ⟨none, [], [], []⟩ fhW (.path "")
     none true false rfl).2 rfl⟩

end FlaskTransfer
